import Mathlib

/-!
Verification of the slurmdbd RPC manager (src/slurmdbd/rpc_mgr.c).

This file gives a shallow embedding of the connection admission and
lifecycle manager of the slurmdbd accounting daemon:

* the admission controller (the functions wait_for_server_thread and
  free_server_thread, guarding thread_count and slave_thread_id under
  thread_count_lock);
* the wake operation rpc_mgr_wake;
* the readiness wait fd_readable;
* the per-connection service loop and teardown of service_connection,
  with the length-prefixed frame protocol (4-byte big-endian length,
  bounds 2 .. MAX_MSG_SIZE), partial-read continuation, request
  dispatch and response sending;
* the worker-thread creation retry of the accept loop in rpc_mgr.

External collaborators (the kernel socket, proc_req, the send path,
pthread_create) are modelled by finite schedules of their outcomes, so
every theorem quantifies over all behaviours of those collaborators.
Machine integers are modelled as Nat; the only wrap-relevant quantity,
the decoded uint32 frame length, is built from four byte values and so
stays below 2 to the 32nd.
-/

namespace RpcMgr

set_option maxRecDepth 10000

/-- MAX_THREAD_COUNT from rpc_mgr.c: the admission capacity N. -/
def MAX_THREAD_COUNT : Nat := 100

/-- MAX_MSG_SIZE from rpc_mgr.c: 16 MiB, the largest accepted frame length. -/
def MAX_MSG_SIZE : Nat := 16*1024*1024

/-- The shared admission state of rpc_mgr.c: the counter thread_count,
the slot table slave_thread_id (0 means a free slot; the C code stores a
pthread_t, modelled as Nat), and the process-wide shutdown flag
shutdown_time (the C code stores a time_t, nonzero when shutdown has
begun, modelled as Bool). All three are read and written only with
thread_count_lock held, so a state-to-state function models each
critical section. -/
structure AdmState where
  thread_count : Nat
  slave_thread_id : List Nat
  shutdown_time : Bool
deriving DecidableEq

/-- The slot scan inside wait_for_server_thread: the first index i with
slave_thread_id i equal to 0, or none when every slot is taken. -/
def lowest_free : List Nat → Option Nat
  | [] => none
  | x :: xs => if x = 0 then some 0 else (lowest_free xs).map (· + 1)

/-- Result of one decision of the wait loop in wait_for_server_thread:
a granted slot index, the shutdown exit (rc stays -1), a wait on
thread_count_cond, or the process-fatal desync error
(fatal "No free slave_thread_id"). -/
inductive AcqRes where
  | granted (i : Nat)
  | stop
  | blocked
  | fatalNoSlot
deriving DecidableEq

/-- One decision of the loop body of wait_for_server_thread, taken with
thread_count_lock held: on shutdown break with rc -1; else if
thread_count is below MAX_THREAD_COUNT, increment it and scan for the
lowest free slot (no free slot is the process-fatal desync); else wait
on the condition variable. -/
def wait_for_server_thread (s : AdmState) : AcqRes × AdmState :=
  if s.shutdown_time then (.stop, s)
  else if s.thread_count < MAX_THREAD_COUNT then
    match lowest_free s.slave_thread_id with
    | some i => (.granted i, { s with thread_count := s.thread_count + 1 })
    | none => (.fatalNoSlot, { s with thread_count := s.thread_count + 1 })
  else (.blocked, s)

/-- The slot-clearing scan of free_server_thread: zero the first slot
equal to my_tid; the Bool is true when no slot matched (the
"Could not find slave_thread_id" error log). -/
def clear_tid (tid : Nat) : List Nat → List Nat × Bool
  | [] => ([], true)
  | x :: xs =>
    if x = tid then (0 :: xs, false)
    else
      let p := clear_tid tid xs
      (x :: p.1, p.2)

/-- Output of free_server_thread: the new shared state, whether the
"thread_count underflow" error was logged, whether the
"Could not find slave_thread_id" error was logged, and whether
thread_count_cond was broadcast. -/
structure FreeOut where
  state : AdmState
  underflow : Bool
  notFound : Bool
  broadcast : Bool
deriving DecidableEq

/-- free_server_thread from rpc_mgr.c: under thread_count_lock,
decrement thread_count if positive (else log "thread_count underflow"
and leave it at zero); if my_tid is nonzero clear the first matching
slot (logging when none matches); always broadcast thread_count_cond. -/
def free_server_thread (s : AdmState) (my_tid : Nat) : FreeOut :=
  let cu : Nat × Bool :=
    if 0 < s.thread_count then (s.thread_count - 1, false) else (s.thread_count, true)
  let sn : List Nat × Bool :=
    if my_tid ≠ 0 then clear_tid my_tid s.slave_thread_id else (s.slave_thread_id, false)
  { state := { s with thread_count := cu.1, slave_thread_id := sn.1 },
    underflow := cu.2, notFound := sn.2, broadcast := true }

/-- rpc_mgr_wake from rpc_mgr.c: under thread_count_lock, signal the
master thread when its recorded id is nonzero, then signal every slot
whose recorded id is nonzero. The result is the list of signalled
thread ids in scan order. -/
def rpc_mgr_wake (master_thread_id : Nat) (slots : List Nat) : List Nat :=
  (if master_thread_id ≠ 0 then [master_thread_id] else []) ++
    slots.filter (fun t => t ≠ 0)

/-- One operation on the shared admission state, as performed by the
accept loop of rpc_mgr and by finishing workers:
* acquireSpawn tid: wait_for_server_thread grants a slot, accept and
  pthread_create succeed, and pthread_create stores the new worker id
  into the granted slot;
* acquireDrop: wait_for_server_thread grants a slot but pthread_create
  fails twice, so the socket is closed and the RPC aborted (the code
  calls no free_server_thread on this path);
* acceptFail: wait_for_server_thread grants a slot but accept fails,
  and the loop calls free_server_thread 0;
* release tid: a worker finishes and calls free_server_thread with its
  own id;
* setShutdown: the shutdown flag is latched. -/
inductive AdmOp where
  | acquireSpawn (tid : Nat)
  | acquireDrop
  | acceptFail
  | release (tid : Nat)
  | setShutdown
deriving DecidableEq

/-- Effect of one AdmOp on the shared admission state. -/
def adm_step (s : AdmState) (op : AdmOp) : AdmState :=
  match op with
  | .acquireSpawn tid =>
    match wait_for_server_thread s with
    | (.granted i, s') => { s' with slave_thread_id := s'.slave_thread_id.set i tid }
    | (_, s') => s'
  | .acquireDrop => (wait_for_server_thread s).2
  | .acceptFail =>
    match wait_for_server_thread s with
    | (.granted _, s') => (free_server_thread s' 0).state
    | (_, s') => s'
  | .release tid => (free_server_thread s tid).state
  | .setShutdown => { s with shutdown_time := true }

/-- The initial admission state of rpc_mgr.c: thread_count 0 and every
slot of slave_thread_id free. -/
def adm_init : AdmState :=
  ⟨0, List.replicate MAX_THREAD_COUNT 0, false⟩

/-- Run a sequence of admission operations from the initial state. -/
def adm_run (ops : List AdmOp) : AdmState :=
  ops.foldl adm_step adm_init

/-- The revents bits that fd_readable inspects after poll returns. -/
structure Revents where
  pollin : Bool
  pollerr : Bool
  pollhup : Bool
  pollnval : Bool
deriving DecidableEq

/-- Outcome of one poll call inside fd_readable: either poll returned
-1 (with eintrOrEagain true when errno was EINTR or EAGAIN), or it
returned with the given revents bits. -/
inductive PollRes where
  | perr (eintrOrEagain : Bool)
  | pok (r : Revents)
deriving DecidableEq

/-- fd_readable from rpc_mgr.c. Each list element is one return from
poll, paired with the value the shared shutdown flag has at that
moment: the flag is checked first, then a failed poll either continues
the loop (EINTR or EAGAIN) or reports not-readable, then the revents
bits are checked in the order of the code (hangup without input,
invalid descriptor, error, missing input). An exhausted list stands for
a wait that never returned, reported as not-readable. -/
def fd_readable : List (PollRes × Bool) → Bool
  | [] => false
  | (pr, sd) :: rest =>
    if sd then false
    else
      match pr with
      | .perr again => if again then fd_readable rest else false
      | .pok r =>
        if r.pollhup ∧ r.pollin = false then false
        else if r.pollnval then false
        else if r.pollerr then false
        else if r.pollin = false then false
        else true

/-- ntohl applied to the four received header bytes: the frame length
is transmitted in big-endian byte order, most significant byte first. -/
def ntohl4 (b0 b1 b2 b3 : Nat) : Nat :=
  ((b0 * 256 + b1) * 256 + b2) * 256 + b3

/-- The frame-length check of the service loop:
msg_size below 2 or above MAX_MSG_SIZE is invalid. -/
def bad_msg_size (n : Nat) : Bool :=
  n < 2 || n > MAX_MSG_SIZE

/-- Modelled from the spec: the status space of the external Request
Processor proc_req. The numeric constants the code compares rc against
(SLURM_SUCCESS, ACCOUNTING_FIRST_REG, ESLURM_ACCESS_DENIED,
SLURM_PROTOCOL_VERSION_ERROR and the remaining failure codes) are
macros defined outside the sources under study, so the five cases the
comparisons distinguish are modelled as an enumeration: success, the
first-registration acknowledgement, access denied, protocol version
mismatch, and any other failure status. -/
inductive Status where
  | success
  | firstReg
  | accessDenied
  | versionMismatch
  | otherFail
deriving DecidableEq

/-- Observable events of one service-loop iteration: the call into
proc_req (with the reassembled payload and the first-frame flag), the
"Processing last message" error log for a failing status, and one
response-send attempt (synthesized is true for the "Bad offset" error
response built after a short read; ok is the send outcome). -/
inductive Ev where
  | procReq (payload : List Nat) (first : Bool) (st : Status)
  | logProcFail
  | sendResp (synthesized : Bool) (ok : Bool)
deriving DecidableEq

/-- Why the service loop stopped: fd_readable reported not-readable;
the header read returned 0 (EOF, the normal connection-closed stop);
the header read returned fewer than 4 bytes (the logged
"Could not read msg_size" error); the decoded length was out of bounds
(the logged "Invalid msg_size" error); the fini flag became true; or
the fuel ran out (never reached with enough fuel). -/
inductive Stop where
  | notReadable
  | connClosed
  | hdrShort
  | badSize (n : Nat)
  | sessionEnd
  | noFuel
deriving DecidableEq

/-- Result of the service loop: the events in order, the stop cause,
and the bytes left unconsumed on the stream. -/
structure LoopOut where
  events : List Ev
  stop : Stop
  stream : List Nat
deriving DecidableEq

/-- Result of the payload-read loop: the bytes accumulated so far, the
remaining stream, the unconsumed readiness and chunk schedules, and
whether the full payload was assembled. -/
structure RpOut where
  acc : List Nat
  stream : List Nat
  readable : List Bool
  chunks : List Nat
  complete : Bool
deriving DecidableEq

/-- The inner payload loop of the service connection: while fewer than
need bytes are assembled, wait for readability (breaking when
fd_readable reports false), then read at most the remaining byte count;
the kernel delivers at most the scheduled chunk size and at most what
the stream still holds, and a read that returns no bytes (EOF or a read
error, both of which the code treats alike) breaks the loop. The
readable schedule gives the outcome of each fd_readable call; its
exhaustion stands for a wait that never returned. -/
def read_payload (need : Nat) :
    List Nat → List Nat → List Bool → List Nat → RpOut
  | acc, stream, [], chunks =>
    if need ≤ acc.length then ⟨acc, stream, [], chunks, true⟩
    else ⟨acc, stream, [], chunks, false⟩
  | acc, stream, r :: rs, chunks =>
    if need ≤ acc.length then ⟨acc, stream, r :: rs, chunks, true⟩
    else if r = false then ⟨acc, stream, rs, chunks, false⟩
    else if min (need - acc.length) (min (chunks.headD 0) stream.length) = 0 then
      ⟨acc, stream, rs, chunks.tail, false⟩
    else
      read_payload need
        (acc ++ stream.take (min (need - acc.length) (min (chunks.headD 0) stream.length)))
        (stream.drop (min (need - acc.length) (min (chunks.headD 0) stream.length)))
        rs chunks.tail

/-- The while loop of service_connection. Schedules model the
collaborators: readable gives the outcome of each fd_readable call,
chunks bounds the bytes each read call delivers, procs gives the status
proc_req returns for each dispatched request, sends gives the outcome
of each slurm_persist_send_msg call. One iteration: check readability;
read the 4-byte length header in a single read (0 bytes is EOF, 1 to 3
bytes the logged short-header error); check the decoded length bounds;
assemble the payload with read_payload; on full assembly call proc_req,
log a failing status and latch fini for access-denied or
version-mismatch; on a length mismatch synthesize the "Bad offset"
error response and latch fini; send the response, latching fini when
the send fails; loop while fini is false. Fuel bounds the iteration
count; readable.length + 1 always suffices since every iteration
consumes at least one readable entry. -/
def service_loop (fuel : Nat) (first : Bool) (stream : List Nat)
    (readable : List Bool) (chunks : List Nat)
    (procs : List Status) (sends : List Bool) : LoopOut :=
  match fuel with
  | 0 => ⟨[], .noFuel, stream⟩
  | fuel + 1 =>
    match readable with
    | [] => ⟨[], .notReadable, stream⟩
    | r :: rs =>
      if r = false then ⟨[], .notReadable, stream⟩
      else
        let n := min 4 (min (chunks.headD 0) stream.length)
        if n = 0 then ⟨[], .connClosed, stream⟩
        else if n < 4 then ⟨[], .hdrShort, stream.drop n⟩
        else
          let msg_size := ntohl4 (stream.getD 0 0) (stream.getD 1 0)
            (stream.getD 2 0) (stream.getD 3 0)
          let stream1 := stream.drop 4
          if bad_msg_size msg_size then ⟨[], .badSize msg_size, stream1⟩
          else
            let rp := read_payload msg_size [] stream1 rs chunks.tail
            if rp.complete then
              let st := procs.headD .otherFail
              let logEvs : List Ev :=
                if st ≠ Status.success ∧ st ≠ Status.firstReg then [.logProcFail] else []
              let sendOk := sends.headD false
              let evs := Ev.procReq rp.acc first st :: logEvs ++ [Ev.sendResp false sendOk]
              if (st = Status.accessDenied ∨ st = Status.versionMismatch) ∨ sendOk = false then
                ⟨evs, .sessionEnd, rp.stream⟩
              else
                let rest := service_loop fuel false rp.stream rp.readable rp.chunks
                  procs.tail sends.tail
                ⟨evs ++ rest.events, rest.stop, rest.stream⟩
            else
              ⟨[Ev.sendResp true (sends.headD false)], .sessionEnd, rp.stream⟩

/-- The teardown steps at the end of service_connection, in program
order: for a persistent connection (rem_port nonzero) outside shutdown,
the clusteracct fini call and the registry scan-and-delete under
registered_lock; for any persistent connection the final commit; always
the storage close, the persist-connection member destruction, the two
frees and the free_server_thread call. -/
inductive TdEv where
  | finiCtld
  | removeRegistered
  | commitFinal
  | closeDbConn
  | destroyMembers
  | freeTres
  | freeConn
  | freeSlot
deriving DecidableEq

/-- The registry scan of the teardown: walk registered_clusters,
delete the first entry equal to this connection, and stop scanning. -/
def remove_registered (c : Nat) : List Nat → List Nat
  | [] => []
  | x :: xs => if x = c then xs else x :: remove_registered c xs

/-- The teardown block of service_connection (everything after the
while loop), as the list of performed steps plus the registry contents
after it: commit runs only when rem_port is nonzero; the cluster fini
call and the registry removal run only when additionally the shutdown
flag is unset; the close, destroy, frees and slot release always run,
the slot release last. -/
def teardown (rem_port : Nat) (shutdown_time : Bool) (registered : List Nat)
    (conn : Nat) : List TdEv × List Nat :=
  let pr : List TdEv × List Nat :=
    if rem_port ≠ 0 then
      let pq : List TdEv × List Nat :=
        if shutdown_time = false then
          ([.finiCtld, .removeRegistered], remove_registered conn registered)
        else ([], registered)
      (pq.1 ++ [TdEv.commitFinal], pq.2)
    else ([], registered)
  (pr.1 ++ [TdEv.closeDbConn, TdEv.destroyMembers, TdEv.freeTres,
            TdEv.freeConn, TdEv.freeSlot], pr.2)

/-- Result of a whole service_connection run: the loop output, the
teardown steps and the registry contents after teardown. -/
structure ConnOut where
  loopOut : LoopOut
  tdEvents : List TdEv
  registered : List Nat
deriving DecidableEq

/-- service_connection from rpc_mgr.c: the frame-processing loop (with
first true for the first dispatched request) followed, on every exit
path, by the single teardown block. -/
def service_connection (stream : List Nat) (readable : List Bool)
    (chunks : List Nat) (procs : List Status) (sends : List Bool)
    (rem_port : Nat) (shutdown_time : Bool) (registered : List Nat)
    (conn : Nat) : ConnOut :=
  let lo := service_loop (readable.length + 1) true stream readable chunks procs sends
  let td := teardown rem_port shutdown_time registered conn
  ⟨lo, td.1, td.2⟩

/-- Result of one accept-loop iteration in rpc_mgr: the loop exits on
shutdown, keeps the lock-protected wait when blocked, frees the slot on
accept failure, spawns the worker on the first or second
pthread_create attempt, or drops the connection after two failures. -/
inductive IterRes where
  | exitLoop
  | waiting
  | fatalExit
  | acceptFailed
  | spawned (i : Nat) (attempts : Nat)
  | dropped (i : Nat)
deriving DecidableEq

/-- Observable outcome of one accept-loop iteration: the result, the
shared admission state afterwards, whether close was called on the new
socket, and whether free_server_thread was called on this path. -/
structure IterOut where
  res : IterRes
  state : AdmState
  socketClosed : Bool
  slotFreed : Bool
deriving DecidableEq

/-- One iteration of the accept loop of rpc_mgr: call
wait_for_server_thread; when it grants slot i, accept (acceptOk false
models slurm_accept_msg_conn failing, upon which the loop calls
free_server_thread 0 and continues); then run the pthread_create retry
loop with outcomes create1 and create2: a first failure is logged and
retried once after usleep(1000); success stores the worker id in slot
i; a second failure logs "aborting RPC", closes the new socket and
breaks, with no call of free_server_thread on that path. -/
def accept_iteration (s : AdmState) (tid : Nat) (acceptOk : Bool)
    (create1 create2 : Bool) : IterOut :=
  match wait_for_server_thread s with
  | (.granted i, s') =>
    if acceptOk = false then
      ⟨.acceptFailed, (free_server_thread s' 0).state, false, true⟩
    else if create1 then
      ⟨.spawned i 1, { s' with slave_thread_id := s'.slave_thread_id.set i tid },
        false, false⟩
    else if create2 then
      ⟨.spawned i 2, { s' with slave_thread_id := s'.slave_thread_id.set i tid },
        false, false⟩
    else
      ⟨.dropped i, s', true, false⟩
  | (.stop, s') => ⟨.exitLoop, s', false, false⟩
  | (.blocked, s') => ⟨.waiting, s', false, false⟩
  | (.fatalNoSlot, s') => ⟨.fatalExit, s', false, false⟩

/-! ## Helper lemmas about the admission controller -/

theorem lowest_free_spec (l : List Nat) :
    ∀ i : Nat, lowest_free l = some i →
      l[i]? = some 0 ∧ ∀ j, j < i → l[j]? ≠ some 0 := by
  induction l with
  | nil => intro i h; simp [lowest_free] at h
  | cons x xs ih =>
    intro i h
    by_cases hx : x = 0
    · simp [lowest_free, hx] at h
      subst h
      exact ⟨by simp [hx], fun j hj => absurd hj (Nat.not_lt_zero j)⟩
    · simp [lowest_free, hx] at h
      obtain ⟨a, ha, hi⟩ := h
      obtain ⟨h1, h2⟩ := ih a ha
      subst hi
      refine ⟨by simpa using h1, ?_⟩
      intro j hj
      cases j with
      | zero => simpa using hx
      | succ k =>
        have : k < a := by omega
        simpa using h2 k this

theorem wait_count_le (s : AdmState) (h : s.thread_count ≤ MAX_THREAD_COUNT) :
    (wait_for_server_thread s).2.thread_count ≤ MAX_THREAD_COUNT := by
  unfold wait_for_server_thread
  by_cases hs : s.shutdown_time = true
  · simpa [hs] using h
  · by_cases hc : s.thread_count < MAX_THREAD_COUNT
    · cases hlf : lowest_free s.slave_thread_id <;> (simp [hs, hc, hlf]; omega)
    · simpa [hs, hc] using h

theorem free_count (s : AdmState) (tid : Nat) :
    (free_server_thread s tid).state.thread_count = s.thread_count - 1 := by
  unfold free_server_thread
  by_cases h : 0 < s.thread_count
  · simp [h]
  · simp [h]
    omega

theorem free_shutdown (s : AdmState) (tid : Nat) :
    (free_server_thread s tid).state.shutdown_time = s.shutdown_time := by
  unfold free_server_thread
  by_cases h : 0 < s.thread_count <;> simp [h]

theorem adm_step_count_le (s : AdmState) (op : AdmOp)
    (h : s.thread_count ≤ MAX_THREAD_COUNT) :
    (adm_step s op).thread_count ≤ MAX_THREAD_COUNT := by
  have hw := wait_count_le s h
  cases op with
  | acquireSpawn tid =>
    simp only [adm_step]
    rcases hq : wait_for_server_thread s with ⟨r, s'⟩
    rw [hq] at hw
    cases r <;> simpa using hw
  | acquireDrop => simpa only [adm_step] using hw
  | acceptFail =>
    simp only [adm_step]
    rcases hq : wait_for_server_thread s with ⟨r, s'⟩
    rw [hq] at hw
    simp only [] at hw
    cases r <;> simp only [free_count] <;> omega
  | release tid =>
    simp only [adm_step, free_count]
    omega
  | setShutdown => simpa only [adm_step] using h

theorem adm_run_count_le (ops : List AdmOp) :
    (adm_run ops).thread_count ≤ MAX_THREAD_COUNT := by
  have h : ∀ (l : List AdmOp) (s : AdmState), s.thread_count ≤ MAX_THREAD_COUNT →
      (l.foldl adm_step s).thread_count ≤ MAX_THREAD_COUNT := by
    intro l
    induction l with
    | nil => intro s hs; simpa using hs
    | cons op l ih => intro s hs; exact ih _ (adm_step_count_le s op hs)
  exact h ops adm_init (Nat.zero_le _)

theorem wait_granted (s s' : AdmState) (i : Nat)
    (h : wait_for_server_thread s = (.granted i, s')) :
    s'.thread_count = s.thread_count + 1 ∧ s.thread_count < MAX_THREAD_COUNT ∧
    s.shutdown_time = false ∧ lowest_free s.slave_thread_id = some i := by
  unfold wait_for_server_thread at h
  by_cases hs : s.shutdown_time = true
  · simp [hs] at h
  · by_cases hc : s.thread_count < MAX_THREAD_COUNT
    · rw [if_neg hs, if_pos hc] at h
      rcases hlf : lowest_free s.slave_thread_id with _ | j <;> rw [hlf] at h
      · simp at h
      · have h1 : AcqRes.granted j = AcqRes.granted i := congrArg Prod.fst h
        have h2 : ({ s with thread_count := s.thread_count + 1 } : AdmState) = s' :=
          congrArg Prod.snd h
        injection h1 with hj
        subst hj
        exact ⟨by rw [← h2], hc, by simpa using hs, rfl⟩
    · rw [if_neg hs, if_neg hc] at h
      simp at h

theorem clear_tid_count (tid : Nat) (htid : tid ≠ 0) :
    ∀ l : List Nat, tid ∈ l →
      List.count tid (clear_tid tid l).1 = List.count tid l - 1 ∧
      (clear_tid tid l).2 = false := by
  intro l
  induction l with
  | nil => intro h; simp at h
  | cons x xs ih =>
    intro h
    by_cases hx : x = tid
    · subst hx
      have h0 : ¬((0 : Nat) == x) = true := by simpa using Ne.symm htid
      simp [clear_tid, List.count_cons, h0]
    · have hmem : tid ∈ xs := by
        rcases List.mem_cons.mp h with h | h
        · exact absurd h.symm hx
        · exact h
      obtain ⟨h1, h2⟩ := ih hmem
      have hxb : ¬(x == tid) = true := by simpa using hx
      constructor
      · simp only [clear_tid, if_neg hx, List.count_cons, hxb]
        simp [h1]
      · simp only [clear_tid, if_neg hx]
        exact h2

/-! ## Claim theorems: admission controller, wake, accept loop -/

/-- C1: over every sequence of admission operations the live-worker count
thread_count never exceeds MAX_THREAD_COUNT = 100; with shutdown unset,
wait_for_server_thread waits on the condition variable while the count equals
the limit; a grant increments the count and returns the index found by the
lowest-free-slot scan, which is the least index holding 0; and a count below
the limit with no free slot is the process-fatal desync exit. -/
theorem C1_admission_bound :
    MAX_THREAD_COUNT = 100 ∧
    (∀ ops : List AdmOp, (adm_run ops).thread_count ≤ MAX_THREAD_COUNT) ∧
    (∀ s : AdmState, s.shutdown_time = false → s.thread_count = MAX_THREAD_COUNT →
      wait_for_server_thread s = (.blocked, s)) ∧
    (∀ (s s' : AdmState) (i : Nat), wait_for_server_thread s = (.granted i, s') →
      s'.thread_count = s.thread_count + 1 ∧ s.thread_count < MAX_THREAD_COUNT ∧
      lowest_free s.slave_thread_id = some i) ∧
    (∀ (l : List Nat) (i : Nat), lowest_free l = some i →
      l[i]? = some 0 ∧ ∀ j, j < i → l[j]? ≠ some 0) ∧
    (∀ s : AdmState, s.shutdown_time = false →
      s.thread_count < MAX_THREAD_COUNT → lowest_free s.slave_thread_id = none →
      (wait_for_server_thread s).1 = .fatalNoSlot) := by
  refine ⟨rfl, adm_run_count_le, ?_, ?_, lowest_free_spec, ?_⟩
  · intro s h1 h2
    unfold wait_for_server_thread
    simp [h1, h2]
  · intro s s' i h
    obtain ⟨ha, hb, _, hd⟩ := wait_granted s s' i h
    exact ⟨ha, hb, hd⟩
  · intro s h1 h2 h3
    unfold wait_for_server_thread
    simp [h1, h2, h3]

/-- Witness for C1 at concrete inputs: a bounded two-operation run, the blocked
full state, a concrete grant, the lowest-free-slot scan on a small table, and
the fatal desync state. -/
theorem C1_admission_bound_witness :
    (adm_run [AdmOp.acquireSpawn 7, AdmOp.release 7]).thread_count ≤ MAX_THREAD_COUNT ∧
    wait_for_server_thread ⟨MAX_THREAD_COUNT, List.replicate 100 1, false⟩ =
      (.blocked, ⟨MAX_THREAD_COUNT, List.replicate 100 1, false⟩) ∧
    ((⟨4, [3, 0], false⟩ : AdmState).thread_count = 3 + 1 ∧ 3 < MAX_THREAD_COUNT ∧
      lowest_free [3, 0] = some 1) ∧
    ([5, 0, 3][1]? = some 0 ∧ ∀ j, j < 1 → [5, 0, 3][j]? ≠ some 0) ∧
    (wait_for_server_thread ⟨3, List.replicate 100 1, false⟩).1 = .fatalNoSlot :=
  ⟨C1_admission_bound.2.1 _,
   C1_admission_bound.2.2.1 _ rfl rfl,
   C1_admission_bound.2.2.2.1 ⟨3, [3, 0], false⟩ ⟨4, [3, 0], false⟩ 1 (by decide),
   C1_admission_bound.2.2.2.2.1 [5, 0, 3] 1 (by decide),
   C1_admission_bound.2.2.2.2.2 ⟨3, List.replicate 100 1, false⟩ rfl (by decide)
     (by decide)⟩

/-- C8: free_server_thread decrements thread_count (clamping at zero with the
underflow error logged exactly when the count was already zero), clears one
slot holding the releasing worker's id, always broadcasts the admission
condition variable, and after a release from a full table the admission wait
no longer blocks. -/
theorem C8_release (s : AdmState) (tid : Nat) :
    (free_server_thread s tid).state.thread_count = s.thread_count - 1 ∧
    (free_server_thread s tid).broadcast = true ∧
    ((free_server_thread s tid).underflow = true ↔ s.thread_count = 0) ∧
    (s.thread_count = 0 → (free_server_thread s tid).state.thread_count = 0) ∧
    (tid ≠ 0 → tid ∈ s.slave_thread_id →
      List.count tid (free_server_thread s tid).state.slave_thread_id
        = List.count tid s.slave_thread_id - 1 ∧
      (free_server_thread s tid).notFound = false) ∧
    (s.shutdown_time = false → s.thread_count = MAX_THREAD_COUNT →
      (wait_for_server_thread (free_server_thread s tid).state).1 ≠ .blocked) := by
  refine ⟨free_count s tid, rfl, ?_, ?_, ?_, ?_⟩
  · unfold free_server_thread
    by_cases h : 0 < s.thread_count <;> simp [h] <;> omega
  · intro h
    rw [free_count]
    omega
  · intro h1 h2
    have : (free_server_thread s tid).state.slave_thread_id
        = (clear_tid tid s.slave_thread_id).1 := by
      unfold free_server_thread
      simp [h1]
    have hnf : (free_server_thread s tid).notFound
        = (clear_tid tid s.slave_thread_id).2 := by
      unfold free_server_thread
      simp [h1]
    rw [this, hnf]
    exact clear_tid_count tid h1 s.slave_thread_id h2
  · intro h1 h2
    have hc := free_count s tid
    have hs := free_shutdown s tid
    unfold wait_for_server_thread
    rw [hc, hs, h1, h2]
    have hlt : MAX_THREAD_COUNT - 1 < MAX_THREAD_COUNT := by
      unfold MAX_THREAD_COUNT
      omega
    cases hlf : lowest_free (free_server_thread s tid).state.slave_thread_id <;>
      simp [hlt, hlf]

/-- Witness for C8 at concrete inputs: clearing the slot of worker 9 in a small
table, and the unblocking of the admission wait after a release from the full
state. -/
theorem C8_release_witness :
    (List.count 9 (free_server_thread ⟨2, [0, 9, 5], false⟩ 9).state.slave_thread_id
        = List.count 9 [0, 9, 5] - 1 ∧
      (free_server_thread ⟨2, [0, 9, 5], false⟩ 9).notFound = false) ∧
    (wait_for_server_thread
        (free_server_thread ⟨MAX_THREAD_COUNT, List.replicate 100 9, false⟩ 9).state).1
      ≠ .blocked :=
  ⟨(C8_release ⟨2, [0, 9, 5], false⟩ 9).2.2.2.2.1 (by decide) (by decide),
   (C8_release ⟨MAX_THREAD_COUNT, List.replicate 100 9, false⟩ 9).2.2.2.2.2 rfl rfl⟩

/-- C10: rpc_mgr_wake signals exactly the recorded nonzero thread ids: every
signalled id is nonzero, a cleared slot (id 0) is never signalled, and when
the master id is unset and every slot is cleared nothing is signalled. -/
theorem C10_wake_nonzero :
    (∀ (m : Nat) (s : List Nat) (t : Nat), t ∈ rpc_mgr_wake m s → t ≠ 0) ∧
    (∀ s : List Nat, (∀ x ∈ s, x = 0) → rpc_mgr_wake 0 s = []) ∧
    (∀ (m : Nat) (s : List Nat), 0 ∉ rpc_mgr_wake m s) := by
  have h1 : ∀ (m : Nat) (s : List Nat) (t : Nat), t ∈ rpc_mgr_wake m s → t ≠ 0 := by
    intro m s t ht
    unfold rpc_mgr_wake at ht
    rcases List.mem_append.mp ht with h | h
    · by_cases hm : m ≠ 0
      · rw [if_pos hm] at h
        simpa [List.mem_singleton.mp h] using hm
      · rw [if_neg hm] at h
        simp at h
    · simpa using (List.mem_filter.mp h).2
  refine ⟨h1, ?_, fun m s hm => h1 m s 0 hm rfl⟩
  intro s hs
  unfold rpc_mgr_wake
  simp only [ne_eq, not_true_eq_false, if_false, List.nil_append]
  exact List.filter_eq_nil_iff.mpr fun a ha => by simpa using hs a ha

/-- Witness for C10 at concrete inputs: a signalled id from a mixed table is
nonzero, and a fully cleared table with no master signals nothing. -/
theorem C10_wake_nonzero_witness :
    (7 : Nat) ≠ 0 ∧ rpc_mgr_wake 0 [0, 0, 0] = [] :=
  ⟨C10_wake_nonzero.1 3 [0, 7] 7 (by decide),
   C10_wake_nonzero.2.1 [0, 0, 0] (by decide)⟩

/-! ## Helper lemmas about the frame protocol loop -/

theorem read_payload_complete :
    ∀ (readable : List Bool) (need : Nat) (acc stream chunks : List Nat),
      (read_payload need acc stream readable chunks).complete = true →
      (read_payload need acc stream readable chunks).acc
          = acc ++ stream.take (need - acc.length) ∧
      (read_payload need acc stream readable chunks).stream
          = stream.drop (need - acc.length) := by
  intro readable
  induction readable with
  | nil =>
    intro need acc stream chunks h
    simp only [read_payload] at h ⊢
    by_cases hle : need ≤ acc.length
    · rw [if_pos hle]
      have h0 : need - acc.length = 0 := by omega
      simp [h0]
    · rw [if_neg hle] at h
      simp at h
  | cons r rs ih =>
    intro need acc stream chunks h
    simp only [read_payload] at h ⊢
    set N := min (need - acc.length) (min (chunks.headD 0) stream.length) with hNdef
    by_cases hle : need ≤ acc.length
    · rw [if_pos hle]
      have h0 : need - acc.length = 0 := by omega
      simp [h0]
    · rw [if_neg hle] at h ⊢
      by_cases hr : r = false
      · rw [if_pos hr] at h
        simp at h
      · rw [if_neg hr] at h ⊢
        by_cases hn : N = 0
        · rw [if_pos hn] at h
          simp at h
        · rw [if_neg hn] at h ⊢
          have hNa : N ≤ need - acc.length := Nat.min_le_left _ _
          have hNs : N ≤ stream.length :=
            le_trans (Nat.min_le_right _ _) (Nat.min_le_right _ _)
          obtain ⟨ha, hs⟩ := ih need (acc ++ stream.take N) (stream.drop N) chunks.tail h
          have hlen : (acc ++ stream.take N).length = acc.length + N := by
            simp [List.length_take, Nat.min_eq_left hNs]
          rw [hlen] at ha hs
          have he1 : need - (acc.length + N) = need - acc.length - N := by omega
          have he2 : N + (need - acc.length - N) = need - acc.length := by omega
          constructor
          · rw [ha, List.append_assoc, he1, ← List.take_add, he2]
          · rw [hs, List.drop_drop, he1, he2]

theorem service_loop_frame (f : Nat) (first : Bool) (b0 b1 b2 b3 : Nat)
    (rest : List Nat) (rs : List Bool) (chunks : List Nat)
    (procs : List Status) (sends : List Bool)
    (hcap : 4 ≤ chunks.headD 0)
    (hok : bad_msg_size (ntohl4 b0 b1 b2 b3) = false) :
    service_loop (f + 1) first (b0 :: b1 :: b2 :: b3 :: rest) (true :: rs) chunks
        procs sends =
      if (read_payload (ntohl4 b0 b1 b2 b3) [] rest rs chunks.tail).complete then
        if (procs.headD .otherFail = Status.accessDenied ∨
            procs.headD .otherFail = Status.versionMismatch) ∨
            sends.headD false = false then
          ⟨Ev.procReq (read_payload (ntohl4 b0 b1 b2 b3) [] rest rs chunks.tail).acc first
              (procs.headD .otherFail) ::
            (if procs.headD .otherFail ≠ Status.success ∧
                procs.headD .otherFail ≠ Status.firstReg then [Ev.logProcFail] else []) ++
            [Ev.sendResp false (sends.headD false)],
           .sessionEnd,
           (read_payload (ntohl4 b0 b1 b2 b3) [] rest rs chunks.tail).stream⟩
        else
          ⟨(Ev.procReq (read_payload (ntohl4 b0 b1 b2 b3) [] rest rs chunks.tail).acc first
              (procs.headD .otherFail) ::
            (if procs.headD .otherFail ≠ Status.success ∧
                procs.headD .otherFail ≠ Status.firstReg then [Ev.logProcFail] else []) ++
            [Ev.sendResp false (sends.headD false)]) ++
            (service_loop f false
              (read_payload (ntohl4 b0 b1 b2 b3) [] rest rs chunks.tail).stream
              (read_payload (ntohl4 b0 b1 b2 b3) [] rest rs chunks.tail).readable
              (read_payload (ntohl4 b0 b1 b2 b3) [] rest rs chunks.tail).chunks
              procs.tail sends.tail).events,
           (service_loop f false
              (read_payload (ntohl4 b0 b1 b2 b3) [] rest rs chunks.tail).stream
              (read_payload (ntohl4 b0 b1 b2 b3) [] rest rs chunks.tail).readable
              (read_payload (ntohl4 b0 b1 b2 b3) [] rest rs chunks.tail).chunks
              procs.tail sends.tail).stop,
           (service_loop f false
              (read_payload (ntohl4 b0 b1 b2 b3) [] rest rs chunks.tail).stream
              (read_payload (ntohl4 b0 b1 b2 b3) [] rest rs chunks.tail).readable
              (read_payload (ntohl4 b0 b1 b2 b3) [] rest rs chunks.tail).chunks
              procs.tail sends.tail).stream⟩
      else
        ⟨[Ev.sendResp true (sends.headD false)], .sessionEnd,
         (read_payload (ntohl4 b0 b1 b2 b3) [] rest rs chunks.tail).stream⟩ := by
  have hn : min 4 (min (chunks.headD 0) (rest.length + 1 + 1 + 1 + 1)) = 4 := by
    omega
  simp only [service_loop, List.length_cons, hn, List.getD_cons_zero, List.getD_cons_succ,
    List.drop_succ_cons, List.drop_zero, hok]
  norm_num

theorem remove_registered_count (c : Nat) :
    ∀ l : List Nat, c ∈ l →
      List.count c (remove_registered c l) = List.count c l - 1 := by
  intro l
  induction l with
  | nil => intro h; simp at h
  | cons x xs ih =>
    intro h
    by_cases hx : x = c
    · subst hx
      simp [remove_registered, List.count_cons]
    · have hmem : c ∈ xs := by
        rcases List.mem_cons.mp h with h | h
        · exact absurd h.symm hx
        · exact h
      have hxb : ¬(x == c) = true := by simpa using hx
      simp [remove_registered, hx, List.count_cons, hxb, ih hmem]

theorem remove_registered_not_mem (c : Nat) :
    ∀ l : List Nat, c ∉ l → remove_registered c l = l := by
  intro l
  induction l with
  | nil => intro _; rfl
  | cons x xs ih =>
    intro h
    have hx : ¬(x = c) := by
      intro he
      exact h (by simp [he])
    have hxs : c ∉ xs := fun hc => h (List.mem_cons_of_mem x hc)
    simp [remove_registered, hx, ih hxs]

/-! ## Claim theorems: frame protocol, readiness wait, teardown -/

/-- C3 (code bug): in the accept loop, pthread_create is retried exactly once
(a worker spawns on the first or second attempt), and a second failure closes
the new socket, logs and drops the connection — but the admission slot acquired
for that connection is never released: from the initial state the dropped path
leaves thread_count at 1 with every slot free and free_server_thread never
called, while the accept-failure path does return the count to 0. -/
theorem C3_spawn_failure_slot_leak :
    accept_iteration adm_init 42 true false false =
      ⟨IterRes.dropped 0, ⟨1, List.replicate 100 0, false⟩, true, false⟩ ∧
    (accept_iteration adm_init 42 true false true).res = IterRes.spawned 0 2 ∧
    (accept_iteration adm_init 42 true true false).res = IterRes.spawned 0 1 ∧
    (accept_iteration adm_init 42 false false false).state.thread_count = 0 ∧
    (accept_iteration adm_init 42 false false false).slotFreed = true := by
  decide

/-- C4 counterexample: a connection whose stream closes after delivering only
2 of the 4 header bytes stops through the logged short-header error branch,
not through the connection-closed branch the claim requires for every stream
that closes before 4 header bytes arrived (the worker does still exit without
dispatching or sending anything). -/
theorem C4_counterexample :
    (service_loop 1 true [5, 6] [true, true] [4, 4] [] []).stop = Stop.hdrShort ∧
    Stop.hdrShort ≠ Stop.connClosed ∧
    (service_loop 1 true [5, 6] [true, true] [4, 4] [] []).events = [] := by
  decide

/-- C4 (amended): the frame header is read with a single 4-byte read call;
when that read delivers fewer than 4 bytes, a delivery of zero bytes is the
normal connection-closed stop while a delivery of 1 to 3 bytes stops through
the logged short-header error; in both cases the worker loop exits without
dispatching a request and without sending a response. -/
theorem C4_header_close (f : Nat) (first : Bool) (stream : List Nat)
    (rs : List Bool) (chunks : List Nat) (procs : List Status) (sends : List Bool)
    (h : min 4 (min (chunks.headD 0) stream.length) < 4) :
    (service_loop (f + 1) first stream (true :: rs) chunks procs sends).events = [] ∧
    (min 4 (min (chunks.headD 0) stream.length) = 0 →
      (service_loop (f + 1) first stream (true :: rs) chunks procs sends).stop
        = .connClosed) ∧
    (min 4 (min (chunks.headD 0) stream.length) ≠ 0 →
      (service_loop (f + 1) first stream (true :: rs) chunks procs sends).stop
        = .hdrShort) := by
  by_cases hn : min 4 (min (chunks.headD 0) stream.length) = 0
  · have hout : service_loop (f + 1) first stream (true :: rs) chunks procs sends
        = ⟨[], .connClosed, stream⟩ := by
      simp only [service_loop]
      rw [if_neg (by decide : ¬(true = false)), if_pos hn]
    rw [hout]
    exact ⟨rfl, fun _ => rfl, fun hc => absurd hn hc⟩
  · have hout : service_loop (f + 1) first stream (true :: rs) chunks procs sends
        = ⟨[], .hdrShort, stream.drop (min 4 (min (chunks.headD 0) stream.length))⟩ := by
      simp only [service_loop]
      rw [if_neg (by decide : ¬(true = false)), if_neg hn, if_pos h]
    rw [hout]
    exact ⟨rfl, fun h0 => absurd h0 hn, fun _ => rfl⟩

/-- Witness for C4 at concrete inputs: the empty stream closes normally, a
2-byte stream stops through the short-header error, neither produces events. -/
theorem C4_header_close_witness :
    (service_loop 1 true [5, 6] [true] [4] [] []).events = [] ∧
    (service_loop 1 true [] [true] [4] [] []).stop = .connClosed ∧
    (service_loop 1 true [5, 6] [true] [4] [] []).stop = .hdrShort :=
  ⟨(C4_header_close 0 true [5, 6] [] [4] [] [] (by decide)).1,
   (C4_header_close 0 true [] [] [4] [] [] (by decide)).2.1 (by decide),
   (C4_header_close 0 true [5, 6] [] [4] [] [] (by decide)).2.2 (by decide)⟩

/-- C5: a fully delivered header whose decoded length fails the bounds check
stops the connection through the logged invalid-size error with no events (no
dispatch, no response) and with only the 4 header bytes consumed from the
stream (no payload byte is read); the check rejects exactly the lengths
outside [2, MAX_MSG_SIZE], so 2 and MAX_MSG_SIZE = 16*1024*1024 both pass. -/
theorem C5_length_bounds :
    (∀ (f : Nat) (first : Bool) (b0 b1 b2 b3 : Nat) (rest : List Nat)
       (rs : List Bool) (chunks : List Nat) (procs : List Status) (sends : List Bool),
      4 ≤ chunks.headD 0 →
      bad_msg_size (ntohl4 b0 b1 b2 b3) = true →
      service_loop (f + 1) first (b0 :: b1 :: b2 :: b3 :: rest) (true :: rs) chunks
          procs sends
        = ⟨[], .badSize (ntohl4 b0 b1 b2 b3), rest⟩) ∧
    (∀ n : Nat, bad_msg_size n = true ↔ (n < 2 ∨ MAX_MSG_SIZE < n)) ∧
    bad_msg_size 2 = false ∧
    bad_msg_size MAX_MSG_SIZE = false ∧
    MAX_MSG_SIZE = 16 * 1024 * 1024 := by
  refine ⟨?_, ?_, by decide, by decide, rfl⟩
  · intro f first b0 b1 b2 b3 rest rs chunks procs sends hcap hbad
    have hn : min 4 (min (chunks.headD 0) (rest.length + 1 + 1 + 1 + 1)) = 4 := by
      omega
    simp only [service_loop, List.length_cons, hn, List.getD_cons_zero,
      List.getD_cons_succ, List.drop_succ_cons, List.drop_zero, hbad]
    norm_num
  · intro n
    simp [bad_msg_size, Nat.lt_iff_add_one_le]

/-- Witness for C5 at a concrete input: a declared length of 1 is rejected
with only the header consumed and no response, and the boundary facts hold. -/
theorem C5_length_bounds_witness :
    service_loop 1 true [0, 0, 0, 1, 9] [true] [4] [] [] = ⟨[], .badSize 1, [9]⟩ ∧
    (bad_msg_size 1 = true ↔ (1 < 2 ∨ MAX_MSG_SIZE < 1)) := by
  constructor
  · have h := C5_length_bounds.1 0 true 0 0 0 1 [9] [] [4] [] [] (by decide) (by decide)
    simpa using h
  · exact C5_length_bounds.2.1 1

/-- C6: payload reading is exact-length with partial-read continuation: for
every chunking schedule under which the inner read loop completes, it has
assembled exactly the first declared-length bytes of the stream; in the
service loop a completed frame dispatches exactly those bytes to proc_req,
and an incomplete read (EOF, read error or not-readable before the declared
length is reached) sends the synthesized error response and ends the
session. -/
theorem C6_payload_reassembly :
    (∀ (need : Nat) (stream : List Nat) (readable : List Bool) (chunks : List Nat),
      (read_payload need [] stream readable chunks).complete = true →
      (read_payload need [] stream readable chunks).acc = stream.take need) ∧
    (∀ (f : Nat) (first : Bool) (b0 b1 b2 b3 : Nat) (rest : List Nat)
       (rs : List Bool) (chunks : List Nat) (procs : List Status) (sends : List Bool),
      4 ≤ chunks.headD 0 →
      bad_msg_size (ntohl4 b0 b1 b2 b3) = false →
      (((read_payload (ntohl4 b0 b1 b2 b3) [] rest rs chunks.tail).complete = true →
        (service_loop (f + 1) first (b0 :: b1 :: b2 :: b3 :: rest) (true :: rs) chunks
            procs sends).events.head?
          = some (Ev.procReq (rest.take (ntohl4 b0 b1 b2 b3)) first
              (procs.headD .otherFail))) ∧
       ((read_payload (ntohl4 b0 b1 b2 b3) [] rest rs chunks.tail).complete = false →
        service_loop (f + 1) first (b0 :: b1 :: b2 :: b3 :: rest) (true :: rs) chunks
            procs sends
          = ⟨[Ev.sendResp true (sends.headD false)], .sessionEnd,
             (read_payload (ntohl4 b0 b1 b2 b3) [] rest rs chunks.tail).stream⟩))) := by
  have hacc : ∀ (need : Nat) (stream : List Nat) (readable : List Bool) (chunks : List Nat),
      (read_payload need [] stream readable chunks).complete = true →
      (read_payload need [] stream readable chunks).acc = stream.take need := by
    intro need stream readable chunks h
    have := (read_payload_complete readable need [] stream chunks h).1
    simpa using this
  refine ⟨hacc, ?_⟩
  intro f first b0 b1 b2 b3 rest rs chunks procs sends hcap hok
  constructor
  · intro hcomp
    rw [service_loop_frame f first b0 b1 b2 b3 rest rs chunks procs sends hcap hok,
      if_pos hcomp, hacc _ _ _ _ hcomp]
    split <;> simp
  · intro hcomp
    rw [service_loop_frame f first b0 b1 b2 b3 rest rs chunks procs sends hcap hok,
      if_neg (by simp [hcomp])]

/-- Witness for C6 at concrete inputs: a 3-byte payload delivered one byte per
read is reassembled exactly and dispatched, and a frame declaring 3 bytes on a
stream holding only 1 ends the session with the synthesized error response. -/
theorem C6_payload_reassembly_witness :
    (read_payload 3 [] [5, 6, 7] [true, true, true] [1, 1, 1]).acc
        = List.take 3 [5, 6, 7] ∧
    (service_loop 1 true [0, 0, 0, 3, 5, 6, 7] [true, true, true, true] [4, 1, 1, 1]
        [Status.success] [true]).events.head?
      = some (Ev.procReq (List.take (ntohl4 0 0 0 3) [5, 6, 7]) true
          (List.headD [Status.success] .otherFail)) ∧
    service_loop 1 true [0, 0, 0, 3, 5] [true, true] [4, 4] [] []
      = ⟨[Ev.sendResp true (List.headD ([] : List Bool) false)], .sessionEnd,
         (read_payload (ntohl4 0 0 0 3) [] [5] [true] [4]).stream⟩ :=
  ⟨C6_payload_reassembly.1 3 [5, 6, 7] [true, true, true] [1, 1, 1] (by decide),
   (C6_payload_reassembly.2 0 true 0 0 0 3 [5, 6, 7] [true, true, true] [4, 1, 1, 1]
      [Status.success] [true] (by decide) (by decide)).1 (by decide),
   (C6_payload_reassembly.2 0 true 0 0 0 3 [5] [true] [4, 4] [] []
      (by decide) (by decide)).2 (by decide)⟩

/-- C7: when a fully delivered frame is dispatched and proc_req returns a
status that is neither success nor the first-registration acknowledgement,
the failure is logged; for access-denied or version-mismatch the session ends
with exactly this request's response send still performed before the stop,
while for any other failing status (with the send succeeding) the loop
continues with the next frame. -/
theorem C7_status_handling
    (f : Nat) (first : Bool) (b0 b1 b2 b3 : Nat) (rest : List Nat) (rs : List Bool)
    (chunks : List Nat) (procs : List Status) (sends : List Bool)
    (hcap : 4 ≤ chunks.headD 0)
    (hok : bad_msg_size (ntohl4 b0 b1 b2 b3) = false)
    (hcomp : (read_payload (ntohl4 b0 b1 b2 b3) [] rest rs chunks.tail).complete = true) :
    ((procs.headD .otherFail ≠ Status.success ∧
        procs.headD .otherFail ≠ Status.firstReg) →
      Ev.logProcFail ∈ (service_loop (f + 1) first (b0 :: b1 :: b2 :: b3 :: rest)
        (true :: rs) chunks procs sends).events) ∧
    ((procs.headD .otherFail = Status.accessDenied ∨
        procs.headD .otherFail = Status.versionMismatch) →
      service_loop (f + 1) first (b0 :: b1 :: b2 :: b3 :: rest) (true :: rs) chunks
          procs sends
        = ⟨[Ev.procReq (read_payload (ntohl4 b0 b1 b2 b3) [] rest rs chunks.tail).acc
              first (procs.headD .otherFail), Ev.logProcFail,
            Ev.sendResp false (sends.headD false)], .sessionEnd,
           (read_payload (ntohl4 b0 b1 b2 b3) [] rest rs chunks.tail).stream⟩) ∧
    (procs.headD .otherFail = Status.otherFail → sends.headD false = true →
      service_loop (f + 1) first (b0 :: b1 :: b2 :: b3 :: rest) (true :: rs) chunks
          procs sends
        = ⟨Ev.procReq (read_payload (ntohl4 b0 b1 b2 b3) [] rest rs chunks.tail).acc
              first Status.otherFail :: Ev.logProcFail :: Ev.sendResp false true ::
            (service_loop f false
              (read_payload (ntohl4 b0 b1 b2 b3) [] rest rs chunks.tail).stream
              (read_payload (ntohl4 b0 b1 b2 b3) [] rest rs chunks.tail).readable
              (read_payload (ntohl4 b0 b1 b2 b3) [] rest rs chunks.tail).chunks
              procs.tail sends.tail).events,
           (service_loop f false
              (read_payload (ntohl4 b0 b1 b2 b3) [] rest rs chunks.tail).stream
              (read_payload (ntohl4 b0 b1 b2 b3) [] rest rs chunks.tail).readable
              (read_payload (ntohl4 b0 b1 b2 b3) [] rest rs chunks.tail).chunks
              procs.tail sends.tail).stop,
           (service_loop f false
              (read_payload (ntohl4 b0 b1 b2 b3) [] rest rs chunks.tail).stream
              (read_payload (ntohl4 b0 b1 b2 b3) [] rest rs chunks.tail).readable
              (read_payload (ntohl4 b0 b1 b2 b3) [] rest rs chunks.tail).chunks
              procs.tail sends.tail).stream⟩) := by
  rw [service_loop_frame f first b0 b1 b2 b3 rest rs chunks procs sends hcap hok,
    if_pos hcomp]
  refine ⟨?_, ?_, ?_⟩
  · intro hst
    rw [if_pos hst]
    split <;> simp
  · intro hst
    have hne : procs.headD .otherFail ≠ Status.success ∧
        procs.headD .otherFail ≠ Status.firstReg := by
      rcases hst with h | h <;> rw [h] <;> exact ⟨by simp, by simp⟩
    rw [if_pos (Or.inl hst), if_pos hne]
    simp
  · intro hst hsend
    have hne : procs.headD .otherFail ≠ Status.success ∧
        procs.headD .otherFail ≠ Status.firstReg := by
      rw [hst]
      exact ⟨by simp, by simp⟩
    have hcond : ¬(((procs.headD .otherFail = Status.accessDenied ∨
        procs.headD .otherFail = Status.versionMismatch)) ∨
        sends.headD false = false) := by
      rw [hst, hsend]
      simp
    rw [if_neg hcond, if_pos hne, hst, hsend]
    simp

/-- Witness for C7 at concrete inputs: an access-denied status is logged and
ends the session right after its response is sent, while a general failure
status is logged and the loop goes on to stop only at the next readiness
wait. -/
theorem C7_status_handling_witness :
    service_loop 1 true [0, 0, 0, 3, 5, 6, 7] [true, true] [4, 4]
        [Status.accessDenied] [true]
      = ⟨[Ev.procReq (read_payload (ntohl4 0 0 0 3) [] [5, 6, 7] [true] [4]).acc
            true (List.headD [Status.accessDenied] .otherFail), Ev.logProcFail,
          Ev.sendResp false (List.headD [true] false)], .sessionEnd,
         (read_payload (ntohl4 0 0 0 3) [] [5, 6, 7] [true] [4]).stream⟩ ∧
    Ev.logProcFail ∈ (service_loop 1 true [0, 0, 0, 3, 5, 6, 7] [true, true] [4, 4]
        [Status.otherFail] [true]).events :=
  ⟨(C7_status_handling 0 true 0 0 0 3 [5, 6, 7] [true] [4, 4] [Status.accessDenied]
      [true] (by decide) (by decide) (by decide)).2.1 (by decide),
   (C7_status_handling 0 true 0 0 0 3 [5, 6, 7] [true] [4, 4] [Status.otherFail]
      [true] (by decide) (by decide) (by decide)).1 (by decide)⟩

/-- C9: shutdown takes priority over readability: whenever the shutdown flag
is observed set right after poll returns, fd_readable reports not-readable
regardless of the poll outcome — also when the flag becomes set only after
earlier interrupted polls — and a not-readable report makes the worker loop
stop at once, reading nothing further from the connection and producing no
further events. -/
theorem C9_shutdown_priority :
    (∀ (pr : PollRes) (rest : List (PollRes × Bool)),
      fd_readable ((pr, true) :: rest) = false) ∧
    (∀ (pre : List (PollRes × Bool)) (pr : PollRes) (rest : List (PollRes × Bool)),
      (∀ e ∈ pre, e = (PollRes.perr true, false)) →
      fd_readable (pre ++ (pr, true) :: rest) = false) ∧
    (∀ (f : Nat) (first : Bool) (stream : List Nat) (rs : List Bool)
       (chunks : List Nat) (procs : List Status) (sends : List Bool),
      service_loop (f + 1) first stream (false :: rs) chunks procs sends
        = ⟨[], .notReadable, stream⟩) := by
  have h1 : ∀ (pr : PollRes) (rest : List (PollRes × Bool)),
      fd_readable ((pr, true) :: rest) = false := by
    intro pr rest
    simp [fd_readable]
  refine ⟨h1, ?_, ?_⟩
  · intro pre
    induction pre with
    | nil => intro pr rest _; exact h1 pr rest
    | cons e es ih =>
      intro pr rest h
      have he := h e (List.mem_cons_self e es)
      rw [he, List.cons_append]
      simp only [fd_readable, Bool.false_eq_true, if_false, if_true]
      exact ih pr rest fun x hx => h x (List.mem_cons_of_mem e hx)
  · intro f first stream rs chunks procs sends
    simp [service_loop]

/-- Witness for C9 at a concrete input: after an interrupted poll, a poll
that reports input available is still overridden by the shutdown flag. -/
theorem C9_shutdown_priority_witness :
    fd_readable [(PollRes.perr true, false),
      (PollRes.pok ⟨true, false, false, false⟩, true)] = false :=
  C9_shutdown_priority.2.1 [(PollRes.perr true, false)]
    (PollRes.pok ⟨true, false, false, false⟩) [] (by decide)

/-- C2 counterexample: the teardown of a non-persistent connection (remote
port 0) performs no commit at all: the claim's "always commit pending
accounting work with the final flag" fails on this exit path, where the code
reaches the commit call only inside the nonzero-remote-port guard. -/
theorem C2_counterexample :
    TdEv.commitFinal ∉ (teardown 0 false [3] 7).1 ∧
    TdEv.closeDbConn ∈ (teardown 0 false [3] 7).1 := by
  decide

/-- C2 (amended): on every exit path of the connection worker the teardown
block runs exactly once: when the connection is persistent and shutdown is
not under way it closes the backend session for the cluster and removes at
most one matching entry from the registered-cluster collection; for every
persistent connection it commits with the final flag before closing the
accounting-storage handle; and on every path it closes the storage handle,
frees the per-connection resources and releases the admission slot, the slot
release coming last. The commit is performed only for persistent connections
(remote port nonzero), not on every path. -/
theorem C2_teardown :
    (∀ (stream : List Nat) (readable : List Bool) (chunks : List Nat)
       (procs : List Status) (sends : List Bool) (rem_port : Nat) (sd : Bool)
       (reg : List Nat) (conn : Nat),
      (service_connection stream readable chunks procs sends rem_port sd reg
          conn).tdEvents
          = (teardown rem_port sd reg conn).1 ∧
      (service_connection stream readable chunks procs sends rem_port sd reg
          conn).registered
          = (teardown rem_port sd reg conn).2) ∧
    (∀ (rem_port : Nat) (sd : Bool) (reg : List Nat) (conn : Nat),
      List.count TdEv.freeSlot (teardown rem_port sd reg conn).1 = 1 ∧
      (teardown rem_port sd reg conn).1.getLast? = some TdEv.freeSlot ∧
      TdEv.closeDbConn ∈ (teardown rem_port sd reg conn).1 ∧
      (TdEv.commitFinal ∈ (teardown rem_port sd reg conn).1 ↔ rem_port ≠ 0) ∧
      (rem_port ≠ 0 → sd = false →
        (teardown rem_port sd reg conn).1
            = [TdEv.finiCtld, TdEv.removeRegistered, TdEv.commitFinal,
               TdEv.closeDbConn, TdEv.destroyMembers, TdEv.freeTres,
               TdEv.freeConn, TdEv.freeSlot] ∧
        (teardown rem_port sd reg conn).2 = remove_registered conn reg) ∧
      (rem_port ≠ 0 → sd = true →
        (teardown rem_port sd reg conn).1
            = [TdEv.commitFinal, TdEv.closeDbConn, TdEv.destroyMembers,
               TdEv.freeTres, TdEv.freeConn, TdEv.freeSlot] ∧
        (teardown rem_port sd reg conn).2 = reg) ∧
      (rem_port = 0 →
        (teardown rem_port sd reg conn).1
            = [TdEv.closeDbConn, TdEv.destroyMembers, TdEv.freeTres,
               TdEv.freeConn, TdEv.freeSlot] ∧
        (teardown rem_port sd reg conn).2 = reg)) ∧
    (∀ (c : Nat) (l : List Nat), c ∈ l →
      List.count c (remove_registered c l) = List.count c l - 1) ∧
    (∀ (c : Nat) (l : List Nat), c ∉ l → remove_registered c l = l) := by
  refine ⟨?_, ?_, remove_registered_count, remove_registered_not_mem⟩
  · intro stream readable chunks procs sends rem_port sd reg conn
    exact ⟨rfl, rfl⟩
  · intro rem_port sd reg conn
    by_cases hp : rem_port = 0
    · subst hp
      simp [teardown]
    · cases sd
      · simp [teardown, hp]
      · simp [teardown, hp]

/-- Witness for C2 at concrete inputs: a persistent connection outside
shutdown produces the full teardown sequence and removes one matching
registry entry; the removal lemmas hold at small lists. -/
theorem C2_teardown_witness :
    (service_connection [] [] [] [] [] 5 false [7, 9, 7] 7).tdEvents
        = (teardown 5 false [7, 9, 7] 7).1 ∧
    (teardown 5 false [7, 9, 7] 7).1
        = [TdEv.finiCtld, TdEv.removeRegistered, TdEv.commitFinal, TdEv.closeDbConn,
           TdEv.destroyMembers, TdEv.freeTres, TdEv.freeConn, TdEv.freeSlot] ∧
    (teardown 5 false [7, 9, 7] 7).2 = remove_registered 7 [7, 9, 7] ∧
    List.count 7 (remove_registered 7 [7, 9, 7]) = List.count 7 [7, 9, 7] - 1 ∧
    remove_registered 3 [7, 9] = [7, 9] :=
  ⟨(C2_teardown.1 [] [] [] [] [] 5 false [7, 9, 7] 7).1,
   ((C2_teardown.2.1 5 false [7, 9, 7] 7).2.2.2.2.1 (by decide) rfl).1,
   ((C2_teardown.2.1 5 false [7, 9, 7] 7).2.2.2.2.1 (by decide) rfl).2,
   C2_teardown.2.2.1 7 [7, 9, 7] (by decide),
   C2_teardown.2.2.2 3 [7, 9] (by decide)⟩

end RpcMgr
